import Mathlib

/-!
Shallow embedding of `client_gatherer.py` (class `GoogleShopifyFinder`).

External collaborators are modelled as oracles supplied to the embedded
functions:
* the HTTP client (`aiohttp`) is an oracle `net : String → GetResult`
  giving, for each URL, either a status/body pair, a TLS handshake
  failure, or some other exception;
* the HTML parser (`BeautifulSoup`) is an oracle `parse : String → Soup`
  where `Soup` records exactly the pieces of the parse the program reads
  (the title element and its string, the `meta[name=description]` element
  and its `content` attribute, and the anchor hrefs);
* the Google custom-search client is an oracle
  `api : String → Nat → ApiResp` from (query, start index) to a response.

Python exceptions are modelled as `none` / dedicated constructors; machine
text is modelled with Lean `String`/`List Char` and ASCII-level case
folding (the program's regexes are ASCII character classes).
-/

namespace ClientGatherer

/-- Python `str.lower()` restricted to ASCII letters (the inputs the
program's regexes care about are ASCII). -/
def pyLower (s : String) : String := String.mk (s.data.map Char.toLower)

/-- Python `str.strip()`: drop whitespace from both ends. -/
def stripChars (cs : List Char) : List Char :=
  ((cs.dropWhile Char.isWhitespace).reverse.dropWhile Char.isWhitespace).reverse

/-- Python `str.strip()` on strings. -/
def pyStrip (s : String) : String := String.mk (stripChars s.data)

/-- Predicate `lcontains pat hay` : does `hay` contain `pat` as a contiguous
substring? Implements `re.search` for a pattern that is a plain literal. -/
def lcontains (pat : List Char) : List Char → Bool
  | [] => pat.isEmpty
  | c :: rest => pat.isPrefixOf (c :: rest) || lcontains pat rest

/-- Model of `re.search(pattern, html, re.I)` for a literal pattern: containment of
the lower-cased pattern in the lower-cased text. -/
def containsCI (hay pat : String) : Bool :=
  lcontains (pat.data.map Char.toLower) (hay.data.map Char.toLower)

/-- Python `url.replace('https://', 'http://')`: naive textual
substitution of every occurrence, scanning left to right. -/
def replaceHttpsChars : List Char → List Char
  | 'h' :: 't' :: 't' :: 'p' :: 's' :: ':' :: '/' :: '/' :: rest =>
      'h' :: 't' :: 't' :: 'p' :: ':' :: '/' :: '/' :: replaceHttpsChars rest
  | c :: rest => c :: replaceHttpsChars rest
  | [] => []

/-- The insecure URL the fetcher falls back to
(`url.replace('https://', 'http://')`). -/
def toHttpUrl (u : String) : String := String.mk (replaceHttpsChars u.data)

/-- Python `s.replace('mailto:', '')`: delete every occurrence. -/
def removeMailtoChars : List Char → List Char
  | 'm' :: 'a' :: 'i' :: 'l' :: 't' :: 'o' :: ':' :: rest => removeMailtoChars rest
  | c :: rest => c :: removeMailtoChars rest
  | [] => []

/-- Python `s.split('?')[0]`. -/
def takeBeforeQuery (cs : List Char) : List Char := cs.takeWhile (· ≠ '?')

/-! ### The email regular expression

`self.email_pattern = re.compile(r'[a-zA-Z0-9._%+-]+@[a-zA-Z0-9.-]+\.[a-zA-Z]{2,}')`

compiled by hand into a backtracking matcher over `List Char`.  A
combinator result of `some rest` means the piece matched, leaving the
suffix `rest` unconsumed. -/

/-- Character class `[a-zA-Z0-9._%+-]` (local part). -/
def isLocalChar (c : Char) : Bool :=
  c.isAlpha || c.isDigit || c == '.' || c == '_' || c == '%' || c == '+' || c == '-'

/-- Character class `[a-zA-Z0-9.-]` (domain part). -/
def isDomainChar (c : Char) : Bool :=
  c.isAlpha || c.isDigit || c == '.' || c == '-'

/-- Greedy `p*` followed by continuation `k`, with backtracking. -/
def matchStarThen (p : Char → Bool) (k : List Char → Option (List Char)) :
    List Char → Option (List Char)
  | [] => k []
  | c :: rest =>
    if p c then
      match matchStarThen p k rest with
      | some r => some r
      | none => k (c :: rest)
    else k (c :: rest)

/-- Greedy `p+` followed by continuation `k`, with backtracking. -/
def matchPlusThen (p : Char → Bool) (k : List Char → Option (List Char)) :
    List Char → Option (List Char)
  | [] => none
  | c :: rest => if p c then matchStarThen p k rest else none

/-- Tail piece `[a-zA-Z]{2,}` at the end of the pattern: two letters then the
maximal letter run (greedy, nothing follows). -/
def matchTldTail : List Char → Option (List Char)
  | a :: b :: rest =>
    if a.isAlpha && b.isAlpha then some (rest.dropWhile Char.isAlpha) else none
  | _ => none

/-- Piece `\.[a-zA-Z]{2,}` — the continuation used after the domain part. -/
def matchDomainDot : List Char → Option (List Char)
  | '.' :: rest => matchTldTail rest
  | _ => none

/-- Piece `@[a-zA-Z0-9.-]+\.[a-zA-Z]{2,}` — continuation after the local part. -/
def matchAtDomain : List Char → Option (List Char)
  | '@' :: rest => matchPlusThen isDomainChar matchDomainDot rest
  | _ => none

/-- Match the whole email pattern anchored at the head of the list,
returning the unconsumed suffix on success. -/
def matchEmailChars : List Char → Option (List Char) :=
  matchPlusThen isLocalChar matchAtDomain

/-- Model of `self.email_pattern.match(email)` — anchored prefix match, used as a
boolean validity test. -/
def emailMatch (s : String) : Bool := (matchEmailChars s.data).isSome

/-- Scanning loop of `re.findall`: leftmost, non-overlapping matches.
The fuel argument is initialised to the text length; the text shrinks by
at least one character per step, so the fuel bound never bites. -/
def findallGo : Nat → List Char → List String
  | 0, _ => []
  | _ + 1, [] => []
  | fuel + 1, c :: rest =>
    match matchEmailChars (c :: rest) with
    | some rem =>
        String.mk ((c :: rest).take ((c :: rest).length - rem.length)) ::
          findallGo fuel rem
    | none => findallGo fuel rest

/-- Model of `self.email_pattern.findall(html)`. -/
def findallEmails (s : String) : List String := findallGo s.data.length s.data

/-! ### Classifier: the Shopify fingerprints -/

/-- The `shopify_patterns` list from `verify_store`.  Each regex is a
literal (the only metacharacters are escaped dots), so each is recorded
as the plain string it matches. -/
def shopify_patterns : List String :=
  ["cdn.shopify.com", "shopify.com/checkout", "Shopify.theme",
   "shopify-payment-button", "powered by shopify", "_shopify_"]

/-- Source line `is_shopify = any(re.search(pattern, html, re.I) for pattern in shopify_patterns)`. -/
def is_shopify (html : String) : Bool :=
  shopify_patterns.any (containsCI html)

/-! ### Fetcher -/

/-- Outcome of one `session.get`: an HTTP response, a TLS handshake
failure (`aiohttp.ClientSSLError`), or any other exception (timeout,
connection error, ...). -/
inductive GetResult where
  | resp (status : Nat) (body : String)
  | sslErr
  | exn
deriving DecidableEq

/-- The plain-HTTP retry performed inside the `except ClientSSLError`
handler: GET the scheme-substituted URL, keep the body only on 200; a
failure of this request escapes to the outer generic handler (absent
result). -/
def httpFallback (net : String → GetResult) (url : String) : Option String :=
  match net (toHttpUrl url) with
  | .resp s b => if s ≠ 200 then none else some b
  | .sslErr => none
  | .exn => none

/-- The fetch portion of `verify_store` (lines 72–93): returns the HTML
body, or `none` when the code would fall through with no body (any
swallowed exception included). -/
def fetchHtml (net : String → GetResult) (url : String) : Option String :=
  match net url with
  | .resp s b =>
    if s ≠ 200 then
      if s = 403 ∨ s = 401 then
        match net (toHttpUrl url) with
        | .resp s2 b2 => if s2 ≠ 200 then none else some b2
        | .sslErr => httpFallback net url
        | .exn => none
      else none
    else some b
  | .sslErr => httpFallback net url
  | .exn => none

/-! ### Parsed-document model (`BeautifulSoup` oracle) -/

/-- The title element as the program sees it: `soup.title.string` may
itself be `None` (e.g. a title element with no single string child). -/
structure TitleTag where
  string : Option String
deriving DecidableEq

/-- A `meta[name=description]` element; subscripting a tag whose
`content` attribute is missing raises `KeyError`, hence the `Option`. -/
structure MetaTag where
  content : Option String
deriving DecidableEq

/-- The slice of a parsed document that `verify_store`/`find_emails`
read. `anchorHrefs` lists the `href` attributes of the `<a>` elements
that carry one, in document order. -/
structure Soup where
  title : Option TitleTag
  metaDescription : Option MetaTag
  anchorHrefs : List String
deriving DecidableEq

/-- Source line `title = soup.title.string.strip() if soup.title else "Unknown"` —
`none` models the `AttributeError` raised when the element exists but
`string` is `None` (swallowed by the enclosing handler). -/
def extract_title (soup : Soup) : Option String :=
  match soup.title with
  | none => some "Unknown"
  | some t =>
    match t.string with
    | none => none
    | some s => some (pyStrip s)

/-- Source line `description = description['content'] if description else "No description"` —
`none` models the `KeyError` on a missing `content` attribute. -/
def extract_description (soup : Soup) : Option String :=
  match soup.metaDescription with
  | none => some "No description"
  | some m => m.content

/-! ### Email extraction (`find_emails`) -/

/-- The mailto-link source: anchors whose href matches `re.compile(r'mailto:')`
(a substring search), processed by
`link['href'].replace('mailto:', '').split('?')[0].strip()`, validated
with the anchored `match`, lower-cased and added to the set. -/
def mailto_emails (soup : Soup) : Finset String :=
  (soup.anchorHrefs.filter (fun h => lcontains ("mailto:".data) h.data)).foldl
    (fun s h =>
      let e := pyStrip (String.mk (takeBeforeQuery (removeMailtoChars h.data)))
      if emailMatch e then insert (pyLower e) s else s) ∅

/-- The raw-text source: `self.email_pattern.findall(html)`, lower-cased. -/
def text_emails (html : String) : Finset String :=
  ((findallEmails html).map pyLower).toFinset

/-- Model of `find_emails(soup, html)`: the union of both sources; the Python
result is `list(set(...))` whose order is unspecified, so the model
returns the set itself. -/
def find_emails (soup : Soup) (html : String) : Finset String :=
  mailto_emails soup ∪ text_emails html

/-! ### Per-URL verification -/

/-- The record built on a successful verification (`store_info`). -/
structure StoreRecord where
  url : String
  title : String
  description : String
  emails : Finset String
  verified : Bool
  discovery_date : String
deriving DecidableEq

/-- The value `verify_store(url)` returns, as a function of the network
and parser oracles; `none` covers every `return None` and every
swallowed exception.  `today` stands for `time.strftime('%Y-%m-%d')`. -/
def verify_store_result (net : String → GetResult) (parse : String → Soup)
    (today : String) (url : String) : Option StoreRecord :=
  match fetchHtml net url with
  | none => none
  | some html =>
    if is_shopify html then
      let soup := parse html
      match extract_title soup, extract_description soup with
      | some t, some d =>
          some ⟨url, t, d, find_emails soup html, true, today⟩
      | _, _ => none
    else none

/-! ### Run state (`GoogleShopifyFinder` instance fields) -/

/-- The mutable fields set up by `__init__` (the logging, SSL-context and
service objects carry no program-visible state). -/
structure RunState where
  api_key : String
  cse_id : String
  store_limit : Nat
  max_checks : Nat
  found_stores : List StoreRecord
  stores_count : Nat
  checked_count : Nat
deriving DecidableEq

/-- Method `verify_store` as run against the instance: increments
`checked_count` first, then computes the result (which does not read the
counters). -/
def verify_store (net : String → GetResult) (parse : String → Soup)
    (today : String) (st : RunState) (url : String) : Option StoreRecord × RunState :=
  (verify_store_result net parse today url,
   { st with checked_count := st.checked_count + 1 })

/-! ### Search-result items -/

/-- A search-result item; the program only ever reads its `link` key
(`item.get('link')` may be absent). -/
structure SearchItem where
  link : Option String
deriving DecidableEq

/-- An item as produced for a known URL. -/
def mkItem (u : String) : SearchItem := ⟨some u⟩

/-- Source line `urls = [result['link'] for result in search_results]` — subscripting
raises `KeyError` when the key is missing, modelled by `none`. -/
def extractLinks : List SearchItem → Option (List String)
  | [] => some []
  | r :: rest =>
    match r.link with
    | some u =>
      match extractLinks rest with
      | some us => some (u :: us)
      | none => none
    | none => none

/-! ### Batch verification orchestrator (`verify_stores`) -/

/-- The chunking `for i in range(0, len(urls), chunk_size)` with
`chunk_size = 5`: contiguous slices `urls[i:i+5]`. -/
def chunks5 {α : Type} : List α → List (List α)
  | [] => []
  | a :: b :: c :: d :: e :: rest => [a, b, c, d, e] :: chunks5 rest
  | l => [l]

/-- The chunk loop of `verify_stores`: verify each chunk (a `gather`
whose results arrive in submission order), drop `None`s/exceptions,
extend the accumulator, and return `verified_stores[:store_limit]` as
soon as the accumulated length reaches `self.store_limit`. -/
def verifyChunks (net : String → GetResult) (parse : String → Soup) (today : String) :
    RunState → List (List String) → List StoreRecord → Option (List StoreRecord) × RunState
  | st, [], acc => (some acc, st)
  | st, c :: rest, acc =>
    let stores := c.filterMap (verify_store_result net parse today)
    let st' := { st with checked_count := st.checked_count + c.length }
    let acc' := acc ++ stores
    if st'.store_limit ≤ acc'.length then (some (acc'.take st'.store_limit), st')
    else verifyChunks net parse today st' rest acc'

/-- Method `verify_stores(search_results)`: empty input short-circuits to `[]`;
otherwise extract the links (`none` = the comprehension raised) and run
the chunk loop. -/
def verify_stores (net : String → GetResult) (parse : String → Soup) (today : String)
    (st : RunState) (search_results : List SearchItem) :
    Option (List StoreRecord) × RunState :=
  if search_results.isEmpty then (some [], st)
  else
    match extractLinks search_results with
    | none => (none, st)
    | some urls => verifyChunks net parse today st (chunks5 urls) []

/-! ### Search driver (`search_norwegian_shopify`) -/

/-- One response of `self.service.cse().list(...).execute()`:
an `HttpError`, a result object with no `'items'` key, or a page of
items. -/
inductive ApiResp where
  | httpError
  | noItems
  | items (l : List SearchItem)
deriving DecidableEq

/-- The accumulating state of the search phase.  `offered` instruments
the run with every item the inner `for` loop traversed, in order; the
program itself only keeps `seen` (`seen_urls`) and `results`
(`all_results`). -/
structure SearchSt where
  seen : Finset String
  results : List SearchItem
  offered : List SearchItem
deriving DecidableEq

/-- The per-page item loop: `if url and url not in seen_urls` (a missing
link or an empty string is falsy), then add to `seen_urls` and append
the item to `all_results`. -/
def collectItems : SearchSt → List SearchItem → SearchSt
  | s, [] => s
  | s, it :: rest =>
    match it.link with
    | some u =>
      if u ≠ "" ∧ u ∉ s.seen then
        collectItems ⟨insert u s.seen, s.results ++ [it], s.offered ++ [it]⟩ rest
      else collectItems ⟨s.seen, s.results, s.offered ++ [it]⟩ rest
    | none => collectItems ⟨s.seen, s.results, s.offered ++ [it]⟩ rest

/-- The pagination loop `while start_index < 100` for one query.  Along
with the state it returns the trace of start indices actually requested.
The structural fuel only decreases once per page; starting from fuel 10
and `start_index = 1` the fuel can reach 0 only with
`start_index = 101`, where the loop guard is false anyway, so the fuel
branch coincides with the guard-false branch. -/
def innerGo (api : Nat → ApiResp) (storesCount storeLimit : Nat) :
    Nat → Nat → SearchSt → SearchSt × List Nat
  | 0, _, s => (s, [])
  | fuel + 1, start, s =>
    if start < 100 then
      if storeLimit ≤ storesCount then (s, [])
      else
        match api start with
        | .httpError => (s, [start])
        | .noItems => (s, [start])
        | .items l =>
          let s' := collectItems s l
          if l.length < 10 then (s', [start])
          else
            let r := innerGo api storesCount storeLimit fuel (start + 10) s'
            (r.1, start :: r.2)
    else (s, [])

/-- One query's pagination, started at index 1. -/
def innerLoop (api : Nat → ApiResp) (storesCount storeLimit : Nat) (s : SearchSt) :
    SearchSt × List Nat :=
  innerGo api storesCount storeLimit 10 1 s

/-- The fixed query list. -/
def search_queries : List String :=
  ["site:.no \"Powered by Shopify\"",
   "site:.no inurl:products shopify.com",
   "site:.no inurl:collections cdn.shopify.com",
   "site:.no \"Shopify online store\"",
   "site:.no nettbutikk shopify",
   "site:.no vipps shopify",
   "site:.no klarna shopify"]

/-- The outer `for query in search_queries` loop, with its
limit-reached break before each query; the trace pairs each requested
start index with its query. -/
def outerGo (api : String → Nat → ApiResp) (storesCount storeLimit : Nat) :
    List String → SearchSt → SearchSt × List (String × Nat)
  | [], s => (s, [])
  | q :: qs, s =>
    if storeLimit ≤ storesCount then (s, [])
    else
      let r := innerLoop (api q) storesCount storeLimit s
      let rest := outerGo api storesCount storeLimit qs r.1
      (rest.1, r.2.map (fun n => (q, n)) ++ rest.2)

/-- The search phase of `search_norwegian_shopify`: all queries from the
fresh `seen_urls`/`all_results`, reading the instance counters. -/
def searchPhase (api : String → Nat → ApiResp) (st : RunState) :
    SearchSt × List (String × Nat) :=
  outerGo api st.stores_count st.store_limit search_queries ⟨∅, [], []⟩

/-- Method `search_norwegian_shopify`: search, then hand `all_results` to
`verify_stores`. -/
def search_norwegian_shopify (api : String → Nat → ApiResp)
    (net : String → GetResult) (parse : String → Soup) (today : String)
    (st : RunState) : Option (List StoreRecord) × RunState :=
  verify_stores net parse today st (searchPhase api st).1.results

/-! ### Report generation -/

/-- The summary object built by `generate_report`. -/
structure Report where
  total_stores_found : Nat
  total_urls_checked : Nat
  store_limit : Nat
  max_checks_limit : Nat
  store_limit_reached : Bool
  max_checks_reached : Bool
  scan_date : String
  stores : List StoreRecord
deriving DecidableEq

/-- Method `generate_report` (pure content; the JSON file write is I/O). -/
def generate_report (st : RunState) (today : String) : Report :=
  ⟨st.found_stores.length, st.checked_count, st.store_limit, st.max_checks,
   decide (st.store_limit ≤ st.found_stores.length),
   decide (st.max_checks ≤ st.checked_count), today, st.found_stores⟩

/-! ### Specification-side characterisation used by claim C4 -/

/-- First-occurrence filter: the items the dedup loop keeps, expressed
directly as a recursion over the traversed stream. -/
def keepFirst (seen : Finset String) : List SearchItem → List SearchItem
  | [] => []
  | it :: rest =>
    match it.link with
    | some u =>
      if u ≠ "" ∧ u ∉ seen then it :: keepFirst (insert u seen) rest
      else keepFirst seen rest
    | none => keepFirst seen rest

/-- The seen-set after the dedup loop traverses a stream. -/
def seenAfter (seen : Finset String) : List SearchItem → Finset String
  | [] => seen
  | it :: rest =>
    match it.link with
    | some u =>
      if u ≠ "" ∧ u ∉ seen then seenAfter (insert u seen) rest
      else seenAfter seen rest
    | none => seenAfter seen rest

/-- The number of URLs the chunk loop feeds to `verify_store` before it
returns (all of them, or all up to and including the chunk that reached
the limit); depends only on the verification outcomes and the limit. -/
def chunkCost (f : String → Option StoreRecord) (limit : Nat) :
    List (List String) → List StoreRecord → Nat
  | [], _ => 0
  | ch :: rest, acc =>
    let acc' := acc ++ ch.filterMap f
    if limit ≤ acc'.length then ch.length
    else ch.length + chunkCost f limit rest acc'

/-! ### Concrete oracles used by scenario theorems and witnesses -/

/-- A parser oracle for pages with no title element, no description meta
element and no anchors. -/
def parse0 : String → Soup := fun _ => ⟨none, none, []⟩

/-- Network oracle for the C3 scenario: 403 on the HTTPS URL, 200 with a
fingerprinted body on its HTTP substitute. -/
def net403 : String → GetResult := fun u =>
  if u = "https://x.no" then .resp 403 "denied"
  else if u = "http://x.no" then .resp 200 "<html><!-- cdn.shopify.com --></html>"
  else .exn

/-- Network oracle answering 200 with a fingerprinted body everywhere. -/
def netOK : String → GetResult := fun _ => .resp 200 "cdn.shopify.com"

/-- Network oracle answering 200 with a fingerprint-free body. -/
def netPlain : String → GetResult := fun _ => .resp 200 "<html>hello</html>"

/-- Run state for the C1 witness: `store_limit = 1`. -/
def stC1 : RunState := ⟨"key", "cse", 1, 1000, [], 0, 0⟩

/-- Five URLs that all verify under `netOK`. -/
def urlsC1 : List String :=
  ["https://a.no", "https://b.no", "https://c.no", "https://d.no", "https://e.no"]

/-- Run state whose stores counter already meets the limit. -/
def stC5 : RunState := ⟨"key", "cse", 2, 1000, [], 5, 0⟩

/-- Search oracle with no `items` field anywhere. -/
def apiNone : String → Nat → ApiResp := fun _ _ => .noItems

/-- Search oracle for one query: a single page of 7 items. -/
def api7 : Nat → ApiResp := fun start =>
  if start = 1 then .items (List.replicate 7 (mkItem "https://u.no")) else .items []

/-- The C7 scenario body. -/
def htmlC7 : String :=
  "<a href=\"mailto:Test@Example.com?subject=hi\">mail</a> contact sales@x.no"

/-- The parse of the C7 scenario body: one anchor with the mailto href. -/
def soupC7 : Soup := ⟨none, none, ["mailto:Test@Example.com?subject=hi"]⟩

/-!
## Theorems
-/

/-- C10: calling the batch verification orchestrator with an empty
search-result list returns the empty list immediately and leaves the run
state (in particular `checked_count`) unchanged; no verification task is
launched and no URL is fetched. -/
theorem spec_C10_empty_input (net : String → GetResult) (parse : String → Soup)
    (today : String) (st : RunState) :
    verify_stores net parse today st [] = (some [], st) := rfl

/-- C3: on a 401/403 first status the fetcher retries exactly once
against the URL with `https://` textually substituted by `http://`, and
uses the retry body only on status 200; a TLS handshake failure likewise
triggers the single plain-HTTP retry; any other non-200 first status, or
a non-200 retry, yields an absent result.  The final conjunct is the
spec scenario: 403 then 200 with body
`<html><!-- cdn.shopify.com --></html>` verifies with title "Unknown"
and description "No description". -/
theorem spec_C3_fetch_fallback (net : String → GetResult) (url : String) :
    (∀ s b b2, net url = .resp s b → s = 401 ∨ s = 403 →
      net (toHttpUrl url) = .resp 200 b2 → fetchHtml net url = some b2) ∧
    (∀ s b s2 b2, net url = .resp s b → s = 401 ∨ s = 403 →
      net (toHttpUrl url) = .resp s2 b2 → s2 ≠ 200 → fetchHtml net url = none) ∧
    (∀ b2, net url = .sslErr → net (toHttpUrl url) = .resp 200 b2 →
      fetchHtml net url = some b2) ∧
    (∀ s2 b2, net url = .sslErr → net (toHttpUrl url) = .resp s2 b2 → s2 ≠ 200 →
      fetchHtml net url = none) ∧
    (∀ s b, net url = .resp s b → s ≠ 200 → s ≠ 401 → s ≠ 403 →
      fetchHtml net url = none) ∧
    verify_store_result net403 parse0 "2024-01-01" "https://x.no" =
      some ⟨"https://x.no", "Unknown", "No description", ∅, true, "2024-01-01"⟩ := by
  refine ⟨?_, ?_, ?_, ?_, ?_, by decide⟩
  · intro s b b2 h1 h2 h3
    rcases h2 with h2 | h2 <;> subst h2 <;> simp [fetchHtml, h1, h3]
  · intro s b s2 b2 h1 h2 h3 h4
    rcases h2 with h2 | h2 <;> subst h2 <;> simp [fetchHtml, h1, h3, h4]
  · intro b2 h1 h2
    simp [fetchHtml, httpFallback, h1, h2]
  · intro s2 b2 h1 h2 h3
    simp [fetchHtml, httpFallback, h1, h2, h3]
  · intro s b h1 h2 h3 h4
    simp [fetchHtml, h1, h2, h3, h4]

/-- C3 witness: the retry branch applied at the concrete 403 scenario. -/
theorem spec_C3_witness :
    net403 "https://x.no" = .resp 403 "denied" ∧
    net403 (toHttpUrl "https://x.no") =
      .resp 200 "<html><!-- cdn.shopify.com --></html>" ∧
    fetchHtml net403 "https://x.no" = some "<html><!-- cdn.shopify.com --></html>" :=
  ⟨by decide, by decide,
    (spec_C3_fetch_fallback net403 "https://x.no").1 403 "denied" _
      (by decide) (Or.inr rfl) (by decide)⟩

/-- C2: classification is a union/OR test over the six fingerprint
patterns, matched case-insensitively.  If the fetched HTML matches none
of them, verification returns an absent result regardless of any other
content; if it matches at least one, the fingerprint gate passes and
verification produces a record (given that the metadata extraction does
not raise). -/
theorem spec_C2_fingerprint_gate (net : String → GetResult) (parse : String → Soup)
    (today : String) (url : String) (html : String)
    (hf : fetchHtml net url = some html) :
    ((∀ p ∈ shopify_patterns, containsCI html p = false) →
      verify_store_result net parse today url = none) ∧
    (∀ p ∈ shopify_patterns, containsCI html p = true →
      ∀ t d, extract_title (parse html) = some t →
        extract_description (parse html) = some d →
        (verify_store_result net parse today url).isSome = true) := by
  constructor
  · intro h
    have hs : is_shopify html = false := by
      simp only [is_shopify, List.any_eq_false]
      intro p hp
      simp [h p hp]
    simp [verify_store_result, hf, hs]
  · intro p hp hcp t d ht hd
    have hs : is_shopify html = true := by
      simp only [is_shopify, List.any_eq_true]
      exact ⟨p, hp, hcp⟩
    simp [verify_store_result, hf, hs, ht, hd]

/-- C2 witness: a fingerprint-free page is rejected. -/
theorem spec_C2_witness :
    fetchHtml netPlain "https://a.no" = some "<html>hello</html>" ∧
    verify_store_result netPlain parse0 "2024-01-01" "https://a.no" = none :=
  ⟨by decide,
    (spec_C2_fingerprint_gate netPlain parse0 "2024-01-01" "https://a.no"
      "<html>hello</html>" (by decide)).1 (by decide)⟩

/-- C9: on any fetched HTML that matches a fingerprint, a missing title
element falls back to "Unknown" and a missing description meta element
falls back to "No description" (each independently, given the other
element is well formed); no exception escapes verification — the record
is produced with the fallback values. -/
theorem spec_C9_fallbacks (net : String → GetResult) (parse : String → Soup)
    (today : String) (url : String) (html : String)
    (hf : fetchHtml net url = some html) (hs : is_shopify html = true) :
    ((parse html).title = none → (parse html).metaDescription = none →
      verify_store_result net parse today url =
        some ⟨url, "Unknown", "No description", find_emails (parse html) html,
          true, today⟩) ∧
    (∀ c, (parse html).title = none → (parse html).metaDescription = some ⟨some c⟩ →
      verify_store_result net parse today url =
        some ⟨url, "Unknown", c, find_emails (parse html) html, true, today⟩) ∧
    (∀ s, (parse html).title = some ⟨some s⟩ → (parse html).metaDescription = none →
      verify_store_result net parse today url =
        some ⟨url, pyStrip s, "No description", find_emails (parse html) html,
          true, today⟩) := by
  refine ⟨?_, ?_, ?_⟩
  · intro h1 h2
    simp [verify_store_result, hf, hs, extract_title, extract_description, h1, h2]
  · intro c h1 h2
    simp [verify_store_result, hf, hs, extract_title, extract_description, h1, h2]
  · intro s h1 h2
    simp [verify_store_result, hf, hs, extract_title, extract_description, h1, h2]

/-- C9 witness: both elements absent on a fingerprinted page. -/
theorem spec_C9_witness :
    fetchHtml netOK "https://a.no" = some "cdn.shopify.com" ∧
    is_shopify "cdn.shopify.com" = true ∧
    verify_store_result netOK parse0 "2024-01-01" "https://a.no" =
      some ⟨"https://a.no", "Unknown", "No description",
        find_emails (parse0 "cdn.shopify.com") "cdn.shopify.com", true, "2024-01-01"⟩ :=
  ⟨by decide, by decide,
    (spec_C9_fallbacks netOK parse0 "2024-01-01" "https://a.no" "cdn.shopify.com"
      (by decide) (by decide)).1 rfl rfl⟩

/-- Every address contributed by the mailto-source fold is the
lower-casing of some string. -/
theorem mem_mailtoFold (g : String → String) :
    ∀ (l : List String) (init : Finset String) (e : String),
      e ∈ l.foldl (fun s h =>
        if emailMatch (g h) then insert (pyLower (g h)) s else s) init →
      e ∈ init ∨ ∃ s, e = pyLower s
  | [], _, _, he => Or.inl he
  | h :: t, init, e, he => by
    rcases mem_mailtoFold g t _ e he with hi | hs
    · dsimp only at hi
      by_cases hm : emailMatch (g h)
      · rw [if_pos hm] at hi
        rcases Finset.mem_insert.mp hi with h1 | h2
        · exact Or.inr ⟨g h, h1⟩
        · exact Or.inl h2
      · rw [if_neg hm] at hi
        exact Or.inl hi
    · exact Or.inr hs

/-- Every address in the extracted set is a lower-cased string. -/
theorem find_emails_lower (soup : Soup) (html : String) (e : String)
    (he : e ∈ find_emails soup html) : ∃ s, e = pyLower s := by
  rcases Finset.mem_union.mp he with hm | ht
  · rcases mem_mailtoFold
        (fun h => pyStrip (String.mk (takeBeforeQuery (removeMailtoChars h.data))))
        (soup.anchorHrefs.filter (fun h => lcontains ("mailto:".data) h.data)) ∅ e hm with
      hi | hs
    · exact absurd hi (Finset.not_mem_empty e)
    · exact hs
  · rcases List.mem_toFinset.mp ht with h
    rcases List.mem_map.mp h with ⟨s, _, hsl⟩
    exact ⟨s, hsl.symm⟩

/-- C7: email extraction unions the mailto-href source and the raw-text
regex source, lower-cases everything and returns a duplicate-free set.
First conjunct: the spec scenario body yields exactly
`{test@example.com, sales@x.no}`; second: mixed-case duplicates collapse
to one lower-case entry; third: every extracted address is the
lower-casing of some string. -/
theorem spec_C7_email_extraction :
    find_emails soupC7 htmlC7 = {"test@example.com", "sales@x.no"} ∧
    find_emails ⟨none, none, []⟩ "Sales@X.no sales@x.no" = {"sales@x.no"} ∧
    (∀ soup html e, e ∈ find_emails soup html → ∃ s, e = pyLower s) :=
  ⟨by decide, by decide, find_emails_lower⟩

/-- C7 witness: the lower-casing property applied at the scenario. -/
theorem spec_C7_witness :
    "test@example.com" ∈ find_emails soupC7 htmlC7 ∧
    ∃ s, "test@example.com" = pyLower s :=
  ⟨by decide,
    spec_C7_email_extraction.2.2 soupC7 htmlC7 "test@example.com" (by decide)⟩

/-- The link comprehension succeeds on items built from plain URLs. -/
theorem extractLinks_map (urls : List String) :
    extractLinks (urls.map mkItem) = some urls := by
  induction urls with
  | nil => rfl
  | cons u rest ih => simp [extractLinks, mkItem, ih]

/-- The chunks partition the URL list. -/
theorem chunks5_flatten {α : Type} : ∀ l : List α, (chunks5 l).flatten = l
  | [] => rfl
  | [_] => rfl
  | [_, _] => rfl
  | [_, _, _] => rfl
  | [_, _, _, _] => rfl
  | a :: b :: c :: d :: e :: rest => by
    simp [chunks5, chunks5_flatten rest]

/-- The chunk loop's result is the filtered successes of all URLs,
truncated at the store limit (provided the accumulator has not reached
the limit yet). -/
theorem verifyChunks_take (net : String → GetResult) (parse : String → Soup)
    (today : String) :
    ∀ (chunks : List (List String)) (st : RunState) (acc : List StoreRecord),
      acc.length < st.store_limit →
      (verifyChunks net parse today st chunks acc).1 =
        some ((acc ++ chunks.flatten.filterMap (verify_store_result net parse today)).take
          st.store_limit)
  | [], st, acc, h => by
    simp [verifyChunks, List.take_of_length_le (Nat.le_of_lt h)]
  | c :: rest, st, acc, h => by
    simp only [verifyChunks]
    by_cases hl : st.store_limit ≤ (acc ++ c.filterMap (verify_store_result net parse today)).length
    · rw [if_pos hl]
      simp only [List.flatten_cons, List.filterMap_append, ← List.append_assoc]
      rw [List.take_append_of_le_length hl]
    · rw [if_neg hl]
      have := verifyChunks_take net parse today rest
        { st with checked_count := st.checked_count + c.length }
        (acc ++ c.filterMap (verify_store_result net parse today)) (Nat.lt_of_not_le hl)
      simpa [List.filterMap_append, List.append_assoc] using this

/-- C1: for every input URL list, when `store_limit > 0` the batch
orchestrator returns exactly the successful verifications truncated to
`store_limit` entries — hence never more than `store_limit`, and exactly
`store_limit` as soon as a batch pushes the accumulated count to (or
past) the limit. -/
theorem spec_C1_store_limit (net : String → GetResult) (parse : String → Soup)
    (today : String) (st : RunState) (urls : List String)
    (h : 0 < st.store_limit) :
    (verify_stores net parse today st (urls.map mkItem)).1 =
      some ((urls.filterMap (verify_store_result net parse today)).take st.store_limit) := by
  cases urls with
  | nil => simp [verify_stores]
  | cons u rest =>
    have hx : extractLinks ((u :: rest).map mkItem) = some (u :: rest) :=
      extractLinks_map _
    have hne : ((u :: rest).map mkItem).isEmpty = false := rfl
    simp only [verify_stores, hne, Bool.false_eq_true, if_false, hx]
    have := verifyChunks_take net parse today (chunks5 (u :: rest)) st [] (by simpa using h)
    simpa [chunks5_flatten] using this

/-- C1 witness: `store_limit = 1`, a batch of 5 URLs that all verify —
the returned list has length exactly 1. -/
theorem spec_C1_witness :
    0 < stC1.store_limit ∧
    (verify_stores netOK parse0 "2024-01-01" stC1 (urlsC1.map mkItem)).1 =
      some [⟨"https://a.no", "Unknown", "No description", ∅, true, "2024-01-01"⟩] :=
  ⟨by decide,
    (spec_C1_store_limit netOK parse0 "2024-01-01" stC1 urlsC1 (by decide)).trans
      (by decide)⟩

/-- The chunk loop's returned record list does not depend on
`max_checks` or on the incoming `checked_count`. -/
theorem verifyChunks_fst_congr (net : String → GetResult) (parse : String → Soup)
    (today : String) :
    ∀ (chunks : List (List String)) (st : RunState) (acc : List StoreRecord) (m c : Nat),
      (verifyChunks net parse today { st with max_checks := m, checked_count := c }
          chunks acc).1 =
        (verifyChunks net parse today st chunks acc).1
  | [], _, _, _, _ => rfl
  | ch :: rest, st, acc, m, c => by
    simp only [verifyChunks]
    by_cases hl :
        st.store_limit ≤ (acc ++ ch.filterMap (verify_store_result net parse today)).length
    all_goals have hl2 := hl
    all_goals rw [List.length_append] at hl2
    · simp [hl, hl2]
    · simp only [hl, hl2, if_neg, ite_false]
      exact verifyChunks_fst_congr net parse today rest
        { st with checked_count := st.checked_count + ch.length }
        (acc ++ ch.filterMap (verify_store_result net parse today)) m (c + ch.length)

/-- The chunk loop advances `checked_count` by a quantity depending only
on the outcomes, the limit and the accumulator. -/
theorem verifyChunks_checked (net : String → GetResult) (parse : String → Soup)
    (today : String) :
    ∀ (chunks : List (List String)) (st : RunState) (acc : List StoreRecord),
      (verifyChunks net parse today st chunks acc).2.checked_count =
        st.checked_count +
          chunkCost (verify_store_result net parse today) st.store_limit chunks acc
  | [], st, acc => by simp [verifyChunks, chunkCost]
  | ch :: rest, st, acc => by
    simp only [verifyChunks, chunkCost]
    by_cases hl :
        st.store_limit ≤ (acc ++ ch.filterMap (verify_store_result net parse today)).length
    all_goals have hl2 := hl
    all_goals rw [List.length_append] at hl2
    · simp [hl, hl2]
    · simp only [hl, hl2, if_neg, ite_false]
      rw [verifyChunks_checked net parse today rest
        { st with checked_count := st.checked_count + ch.length }
        (acc ++ ch.filterMap (verify_store_result net parse today))]
      simp [Nat.add_assoc]

/-- C6: `max_checks` is never enforced during execution: the records
returned by the batch orchestrator, and the number of URLs it checks,
are the same for every value of `max_checks` and every prior value of
`checked_count` (so neither `verify_store` nor `verify_stores` ever
stops because `checked_count` reached `max_checks`); `max_checks` is
only read when the final report's `max_checks_limit` and
`max_checks_reached` fields are produced. -/
theorem spec_C6_max_checks_dead (net : String → GetResult) (parse : String → Soup)
    (today : String) (st : RunState) (rs : List SearchItem) (m c : Nat) :
    (verify_stores net parse today { st with max_checks := m, checked_count := c } rs).1 =
      (verify_stores net parse today st rs).1 ∧
    (verify_stores net parse today { st with max_checks := m, checked_count := c }
        rs).2.checked_count - c =
      (verify_stores net parse today st rs).2.checked_count - st.checked_count ∧
    (generate_report st today).max_checks_limit = st.max_checks ∧
    (generate_report st today).max_checks_reached =
      decide (st.max_checks ≤ st.checked_count) := by
  refine ⟨?_, ?_, rfl, rfl⟩
  · by_cases he : rs.isEmpty
    · simp [verify_stores, he]
    · cases hx : extractLinks rs with
      | none => simp [verify_stores, he, hx]
      | some urls =>
        simp only [verify_stores, he, hx, Bool.false_eq_true, if_false]
        exact verifyChunks_fst_congr net parse today (chunks5 urls) st [] m c
  · by_cases he : rs.isEmpty
    · simp [verify_stores, he]
    · cases hx : extractLinks rs with
      | none => simp [verify_stores, he, hx]
      | some urls =>
        simp only [verify_stores, he, hx, Bool.false_eq_true, if_false]
        rw [verifyChunks_checked net parse today (chunks5 urls)
          { st with max_checks := m, checked_count := c } [],
          verifyChunks_checked net parse today (chunks5 urls) st []]
        simp

/-- When the stores counter has met the limit, the pagination loop makes
no request at all, from any fuel and start index. -/
theorem innerGo_halt (api2 : Nat → ApiResp) (sc sl : Nat) (h : sl ≤ sc) :
    ∀ (fuel start : Nat) (s : SearchSt), innerGo api2 sc sl fuel start s = (s, [])
  | 0, _, _ => rfl
  | _ + 1, start, s => by simp [innerGo, h]

/-- C5: the search driver compares `stores_count` with `store_limit`
before starting each query and before requesting each page, and breaks
out when the counter has reached the limit: with the counter at (or
past) the limit the whole search phase issues no API request and
collects nothing, and the per-page check makes any pagination state with
`store_limit ≤ stores_count` return immediately with an empty request
trace. -/
theorem spec_C5_limit_check (api : String → Nat → ApiResp) (st : RunState)
    (h : st.store_limit ≤ st.stores_count) :
    searchPhase api st = (⟨∅, [], []⟩, []) ∧
    (∀ (api2 : Nat → ApiResp) (sc sl fuel start : Nat) (s : SearchSt),
      sl ≤ sc → innerGo api2 sc sl fuel start s = (s, [])) := by
  constructor
  · simp [searchPhase, search_queries, outerGo, h]
  · intro api2 sc sl fuel start s hsl
    exact innerGo_halt api2 sc sl hsl fuel start s

/-- C5 witness: limit already met, no request issued. -/
theorem spec_C5_witness :
    stC5.store_limit ≤ stC5.stores_count ∧ searchPhase apiNone stC5 = (⟨∅, [], []⟩, []) :=
  ⟨by decide, (spec_C5_limit_check apiNone stC5 (by decide)).1⟩

/-- The per-page loop is the first-occurrence filter: it extends
`results` with exactly the first-seen items and records every traversed
item in `offered`. -/
theorem collectItems_spec :
    ∀ (l : List SearchItem) (s : SearchSt),
      collectItems s l =
        ⟨seenAfter s.seen l, s.results ++ keepFirst s.seen l, s.offered ++ l⟩
  | [], s => by cases s <;> simp [collectItems, seenAfter, keepFirst]
  | it :: rest, s => by
    cases h : it.link with
    | none =>
      rw [collectItems, seenAfter, keepFirst, h]
      rw [collectItems_spec rest ⟨s.seen, s.results, s.offered ++ [it]⟩]
      simp
    | some u =>
      rw [collectItems, seenAfter, keepFirst, h]
      dsimp only
      split_ifs with hc
      · rw [collectItems_spec rest ⟨insert u s.seen, s.results ++ [it], s.offered ++ [it]⟩]
        simp
      · rw [collectItems_spec rest ⟨s.seen, s.results, s.offered ++ [it]⟩]
        simp

/-- Traversing a concatenated stream updates the seen-set in stages. -/
theorem seenAfter_append :
    ∀ (l₁ l₂ : List SearchItem) (seen : Finset String),
      seenAfter seen (l₁ ++ l₂) = seenAfter (seenAfter seen l₁) l₂
  | [], _, _ => rfl
  | it :: rest, l₂, seen => by
    cases h : it.link with
    | none =>
      rw [List.cons_append, seenAfter, seenAfter, h]
      exact seenAfter_append rest l₂ seen
    | some u =>
      rw [List.cons_append, seenAfter, seenAfter, h]
      dsimp only
      split_ifs with hc
      · exact seenAfter_append rest l₂ (insert u seen)
      · exact seenAfter_append rest l₂ seen

/-- The first-occurrence filter distributes over concatenation. -/
theorem keepFirst_append :
    ∀ (l₁ l₂ : List SearchItem) (seen : Finset String),
      keepFirst seen (l₁ ++ l₂) =
        keepFirst seen l₁ ++ keepFirst (seenAfter seen l₁) l₂
  | [], _, _ => rfl
  | it :: rest, l₂, seen => by
    cases h : it.link with
    | none =>
      rw [List.cons_append, keepFirst, keepFirst, seenAfter, h]
      exact keepFirst_append rest l₂ seen
    | some u =>
      rw [List.cons_append, keepFirst, keepFirst, seenAfter, h]
      dsimp only
      split_ifs with hc
      · rw [keepFirst_append rest l₂ (insert u seen), List.cons_append]
      · exact keepFirst_append rest l₂ seen

/-- Every run of the pagination loop extends the state by some traversed
stream `Δ`, deduplicated by the first-occurrence filter. -/
theorem innerGo_state (api : Nat → ApiResp) (sc sl : Nat) :
    ∀ (fuel start : Nat) (s : SearchSt), ∃ Δ,
      (innerGo api sc sl fuel start s).1 =
        ⟨seenAfter s.seen Δ, s.results ++ keepFirst s.seen Δ, s.offered ++ Δ⟩
  | 0, _, s => ⟨[], by cases s <;> simp [innerGo, seenAfter, keepFirst]⟩
  | fuel + 1, start, s => by
    by_cases h100 : start < 100
    · by_cases hsl : sl ≤ sc
      · exact ⟨[], by cases s <;> simp [innerGo, h100, hsl, seenAfter, keepFirst]⟩
      · cases hapi : api start with
        | httpError =>
          exact ⟨[], by cases s <;> simp [innerGo, h100, hsl, hapi, seenAfter, keepFirst]⟩
        | noItems =>
          exact ⟨[], by cases s <;> simp [innerGo, h100, hsl, hapi, seenAfter, keepFirst]⟩
        | items l =>
          by_cases hlen : l.length < 10
          · refine ⟨l, ?_⟩
            simp only [innerGo, h100, if_true, hsl, if_false, hapi, hlen, ite_true, ite_false]
            exact collectItems_spec l s
          · obtain ⟨Δ', hΔ'⟩ := innerGo_state api sc sl fuel (start + 10) (collectItems s l)
            refine ⟨l ++ Δ', ?_⟩
            simp only [innerGo, h100, if_true, hsl, if_false, hapi, hlen, ite_true, ite_false]
            rw [hΔ', collectItems_spec l s]
            simp [seenAfter_append, keepFirst_append, List.append_assoc]
    · exact ⟨[], by cases s <;> simp [innerGo, h100, seenAfter, keepFirst]⟩

/-- As `innerGo_state`, for the whole query loop. -/
theorem outerGo_state (api : String → Nat → ApiResp) (sc sl : Nat) :
    ∀ (qs : List String) (s : SearchSt), ∃ Δ,
      (outerGo api sc sl qs s).1 =
        ⟨seenAfter s.seen Δ, s.results ++ keepFirst s.seen Δ, s.offered ++ Δ⟩
  | [], s => ⟨[], by cases s <;> simp [outerGo, seenAfter, keepFirst]⟩
  | q :: qs, s => by
    by_cases h : sl ≤ sc
    · exact ⟨[], by cases s <;> simp [outerGo, h, seenAfter, keepFirst]⟩
    · obtain ⟨Δ₁, h₁⟩ := innerGo_state (api q) sc sl 10 1 s
      obtain ⟨Δ₂, h₂⟩ := outerGo_state api sc sl qs (innerLoop (api q) sc sl s).1
      refine ⟨Δ₁ ++ Δ₂, ?_⟩
      have hfst : (outerGo api sc sl (q :: qs) s).1 =
          (outerGo api sc sl qs (innerLoop (api q) sc sl s).1).1 := by
        simp [outerGo, h]
      rw [hfst, h₂, innerLoop, h₁]
      simp [seenAfter_append, keepFirst_append, List.append_assoc]

/-- The kept items have pairwise-distinct links, none of them already
seen. -/
theorem keepFirst_nodup :
    ∀ (l : List SearchItem) (seen : Finset String),
      ((keepFirst seen l).filterMap SearchItem.link).Nodup ∧
      ∀ u ∈ (keepFirst seen l).filterMap SearchItem.link, u ∉ seen
  | [], seen => by simp [keepFirst]
  | it :: rest, seen => by
    cases h : it.link with
    | none =>
      rw [keepFirst, h]
      exact keepFirst_nodup rest seen
    | some u =>
      rw [keepFirst, h]
      dsimp only
      split_ifs with hc
      · obtain ⟨hnd, hmem⟩ := keepFirst_nodup rest (insert u seen)
        rw [List.filterMap_cons_some h]
        constructor
        · refine List.Nodup.cons ?_ hnd
          intro hu
          exact hmem u hu (Finset.mem_insert_self u seen)
        · intro v hv
          rcases List.mem_cons.mp hv with hv | hv
          · exact hv ▸ hc.2
          · exact fun hvs => hmem v hv (Finset.mem_insert_of_mem hvs)
      · exact keepFirst_nodup rest seen

/-- C4: within a run the driver never passes the same URL to
verification twice.  The accumulated result list is exactly the
first-occurrence filter of the stream of items the run traversed (so a
URL seen under any earlier query or page is dropped and only its
first-seen item is kept, even across overlapping queries), and the links
of the returned list are pairwise distinct. -/
theorem spec_C4_dedup (api : String → Nat → ApiResp) (st : RunState) :
    (searchPhase api st).1.results = keepFirst ∅ (searchPhase api st).1.offered ∧
    (((searchPhase api st).1.results).filterMap SearchItem.link).Nodup := by
  obtain ⟨Δ, hΔ⟩ :=
    outerGo_state api st.stores_count st.store_limit search_queries ⟨∅, [], []⟩
  rw [searchPhase, hΔ]
  exact ⟨by simp, by simpa using (keepFirst_nodup Δ ∅).1⟩

/-- One unfolding of the pagination loop when the guard holds and the
limit check passes. -/
theorem innerGo_step (api : Nat → ApiResp) (sc sl fuel start : Nat) (s : SearchSt)
    (h100 : start < 100) (hsl : ¬ sl ≤ sc) :
    innerGo api sc sl (fuel + 1) start s =
      match api start with
      | .httpError => (s, [start])
      | .noItems => (s, [start])
      | .items l =>
        if l.length < 10 then (collectItems s l, [start])
        else
          ((innerGo api sc sl fuel (start + 10) (collectItems s l)).1,
            start :: (innerGo api sc sl fuel (start + 10) (collectItems s l)).2) := by
  cases hapi : api start <;> simp [innerGo, h100, hsl, hapi]

/-- The request trace of the pagination loop is a contiguous run of
start indices stepping by 10; every non-final requested page returned a
full page of at least 10 items, and every requested index passed the
`< 100` guard. -/
theorem innerGo_trace (api : Nat → ApiResp) (sc sl : Nat) (h : sc < sl) :
    ∀ (fuel start : Nat) (s : SearchSt), ∃ n,
      (innerGo api sc sl fuel start s).2 =
        (List.range n).map (fun k => start + 10 * k) ∧
      (∀ k, k + 1 < n → ∃ l, api (start + 10 * k) = .items l ∧ 10 ≤ l.length) ∧
      (∀ k, k < n → start + 10 * k < 100)
  | 0, start, s =>
    ⟨0, by simp [innerGo], fun k hk => absurd hk (by omega),
      fun k hk => absurd hk (by omega)⟩
  | fuel + 1, start, s => by
    have hsl : ¬ sl ≤ sc := Nat.not_le.2 h
    by_cases h100 : start < 100
    · cases hapi : api start with
      | httpError =>
        exact ⟨1, by simp [innerGo, h100, hsl, hapi, List.range_succ],
          fun k hk => absurd hk (by omega), fun k hk => by omega⟩
      | noItems =>
        exact ⟨1, by simp [innerGo, h100, hsl, hapi, List.range_succ],
          fun k hk => absurd hk (by omega), fun k hk => by omega⟩
      | items l =>
        by_cases hlen : l.length < 10
        · exact ⟨1, by simp [innerGo, h100, hsl, hapi, hlen, List.range_succ],
            fun k hk => absurd hk (by omega), fun k hk => by omega⟩
        · obtain ⟨n', h1, h2, h3⟩ :=
            innerGo_trace api sc sl h fuel (start + 10) (collectItems s l)
          have hfun : ((fun k => start + 10 * k) ∘ Nat.succ) =
              fun k => (start + 10) + 10 * k := by
            funext k
            show start + 10 * (k + 1) = (start + 10) + 10 * k
            ring
          refine ⟨n' + 1, ?_, ?_, ?_⟩
          · rw [innerGo_step api sc sl fuel start s h100 hsl, hapi]
            dsimp only
            rw [if_neg hlen, h1, List.range_succ_eq_map, List.map_cons,
              List.map_map, hfun]
            simp
          · intro k hk
            match k with
            | 0 => exact ⟨l, by simpa using hapi, Nat.le_of_not_lt hlen⟩
            | k + 1 =>
              obtain ⟨l', hl', hlen'⟩ := h2 k (by omega)
              refine ⟨l', ?_, hlen'⟩
              have heq : start + 10 * (k + 1) = (start + 10) + 10 * k := by ring
              rw [heq]
              exact hl'
          · intro k hk
            match k with
            | 0 => simpa using h100
            | k + 1 =>
              have := h3 k (by omega)
              omega
    · exact ⟨0, by simp [innerGo, h100], fun k hk => absurd hk (by omega),
        fun k hk => absurd hk (by omega)⟩

/-- C8: for every query, pagination starts at index 1 and advances by
10; a further page is requested only when the previous page held a full
10 items and the next start index is still below 100.  First conjuncts:
a page with fewer than 10 items (e.g. exactly 7), or a response with no
`items` field, ends the query with no further request; last conjuncts:
any requested index beyond the first certifies a preceding full page,
and every requested index is of the form 1 + 10k and below 100. -/
theorem spec_C8_pagination (api : Nat → ApiResp) (sc sl : Nat) (s : SearchSt)
    (h : sc < sl) :
    (∀ l, api 1 = .items l → l.length < 10 → (innerLoop api sc sl s).2 = [1]) ∧
    (api 1 = .noItems → (innerLoop api sc sl s).2 = [1]) ∧
    (∀ x, x + 10 ∈ (innerLoop api sc sl s).2 →
      x ∈ (innerLoop api sc sl s).2 ∧ ∃ l, api x = .items l ∧ 10 ≤ l.length) ∧
    (∀ x ∈ (innerLoop api sc sl s).2, x % 10 = 1 ∧ x < 100) := by
  have hsl : ¬ sl ≤ sc := Nat.not_le.2 h
  obtain ⟨n, h1, h2, h3⟩ := innerGo_trace api sc sl h 10 1 s
  refine ⟨?_, ?_, ?_, ?_⟩
  · intro l hl hlen
    rw [innerLoop, show (10 : Nat) = 9 + 1 from rfl,
      innerGo_step api sc sl 9 1 s (by norm_num) hsl, hl]
    simp [hlen]
  · intro hl
    rw [innerLoop, show (10 : Nat) = 9 + 1 from rfl,
      innerGo_step api sc sl 9 1 s (by norm_num) hsl, hl]
  · intro x hx
    rw [innerLoop] at hx ⊢
    rw [h1] at hx ⊢
    rcases List.mem_map.mp hx with ⟨k, hk, hkx⟩
    rw [List.mem_range] at hk
    have hkx' : 1 + 10 * k = x + 10 := hkx
    constructor
    · exact List.mem_map.mpr ⟨k - 1, List.mem_range.mpr (by omega), by
        show 1 + 10 * (k - 1) = x
        omega⟩
    · obtain ⟨l, hl, hlen⟩ := h2 (k - 1) (by omega)
      refine ⟨l, ?_, hlen⟩
      have heq : 1 + 10 * (k - 1) = x := by omega
      rwa [heq] at hl
  · intro x hx
    rw [innerLoop, h1] at hx
    rcases List.mem_map.mp hx with ⟨k, hk, hkx⟩
    rw [List.mem_range] at hk
    have hkx' : 1 + 10 * k = x := hkx
    have := h3 k hk
    omega

/-- C8 witness: a single page of 7 items ends the query after the one
request at start index 1. -/
theorem spec_C8_witness :
    (0 : Nat) < 1 ∧ (innerLoop api7 0 1 ⟨∅, [], []⟩).2 = [1] :=
  ⟨by decide,
    (spec_C8_pagination api7 0 1 ⟨∅, [], []⟩ (by decide)).1
      (List.replicate 7 (mkItem "https://u.no")) (by decide) (by decide)⟩

end ClientGatherer
